import Mathlib

set_option maxHeartbeats 1000000

namespace GolangDatabase

/-!
Shallow embedding of the file-based JSON record store in `main.go` of the
`golang-database` repository.

The driver (`Driver`) owns a root directory, a lazily grown per-collection
lock registry, and a logging sink (the logger carries no state any claim
observes, so it is omitted).  The filesystem is modelled as an association
list from full slash-separated paths to entries; fallible OS calls take an
`Env` of injected environmental outcomes.  String manipulation is done over
the underlying character lists so that every definition reduces inside the
kernel.  The JSON serializer is the black-box collaborator of spec sections
1 and 6: a `Value` either carries its encoding or is unsupported by the
encoder (a Go channel or function value).
-/

/-- True when the first character list is an initial segment of the second. -/
def listIsPre : List Char → List Char → Bool
  | [], _ => true
  | _ :: _, [] => false
  | a :: as, b :: bs => if a = b then listIsPre as bs else false

/-- Split a character list at every slash, keeping empty pieces. -/
def splitCharsAux : List Char → List Char → List String
  | [], acc => [String.mk acc.reverse]
  | c :: rest, acc =>
      if c = '/' then String.mk acc.reverse :: splitCharsAux rest []
      else splitCharsAux rest (c :: acc)

/-- The slash-separated components of a path. -/
def pathComponents (p : String) : List String :=
  splitCharsAux p.data []

/-- Join path components with slashes. -/
def joinSlash : List String → String
  | [] => ""
  | [p] => p
  | p :: rest => p ++ "/" ++ joinSlash rest

/-- `filepath.Join`: empty components are dropped and the rest joined with
slashes.  Cleaning of dots and duplicate separators is out of scope: the
development quantifies over already-clean component names, which is all the
source ever produces. -/
def filepathJoin (parts : List String) : String :=
  joinSlash (parts.filter (fun s => decide (s ≠ "")))

/-- Successive slash-boundary ancestors of a path, shortest first, ending
with the path itself; `os.MkdirAll` creates a directory at each missing
one. -/
def prefixesAux (base : String) : List String → List String
  | [] => []
  | c :: rest =>
      let q := if base = "" then c else base ++ "/" ++ c
      q :: prefixesAux q rest

/-- All slash-boundary ancestor paths of `p`, including `p` itself. -/
def ancestorPaths (p : String) : List String :=
  prefixesAux "" (pathComponents p)

/-- A filesystem entry: a regular file with its byte content (modelled as a
string), or a directory. -/
inductive Entry where
  | file (content : String)
  | directory
deriving DecidableEq, Repr

/-- The filesystem: an association list from full path to entry; the first
binding for a path wins. -/
abbrev FS := List (String × Entry)

/-- First-match lookup in an association list keyed by strings. -/
def lookupKey {α : Type} : List (String × α) → String → Option α
  | [], _ => none
  | (q, e) :: rest, p => if q = p then some e else lookupKey rest p

/-- Replace the binding at `p`, or append one: models creating or
overwriting the object at a path. -/
def setFS : FS → String → Entry → FS
  | [], p, e => [(p, e)]
  | (q, e0) :: rest, p, e =>
      if q = p then (p, e) :: rest else (q, e0) :: setFS rest p e

/-- Keep only the bindings whose path satisfies `keep`. -/
def filterFS (fs : FS) (keep : String → Bool) : FS :=
  fs.filter (fun pe => keep pe.1)

/-- `os.Remove` of a regular file: drop the binding at path `p`. -/
def eraseFS (fs : FS) (p : String) : FS :=
  filterFS fs (fun q => if q = p then false else true)

/-- True when `p` is `dir` itself or lies strictly below directory `dir`. -/
def underDir (dir p : String) : Bool :=
  if p = dir then true else listIsPre (dir.data ++ ['/']) p.data

/-- `os.RemoveAll`: drop `dir` and everything below it. -/
def removeAllFS (fs : FS) (dir : String) : FS :=
  filterFS fs (fun q => if underDir dir q then false else true)

/-- `os.MkdirAll`: create a directory at every missing ancestor of `p`;
fails when some ancestor path is occupied by a regular file. -/
def mkdirAllFS (fs : FS) (p : String) : Option FS :=
  if (ancestorPaths p).any (fun q =>
      match lookupKey fs q with
      | some (Entry.file _) => true
      | _ => false) then
    none
  else
    some ((ancestorPaths p).foldl
      (fun acc q =>
        if (lookupKey acc q).isSome then acc else setFS acc q Entry.directory)
      fs)

/-- A value handed to the store.  The serializer is the black-box
collaborator of spec sections 1 and 6: `json s` is a value whose
pretty-printed encoding is the byte string `s`; `unsupported` is a value the
encoder rejects (in Go, a channel or function value). -/
inductive Value where
  | json (s : String)
  | unsupported
deriving DecidableEq, Repr

/-- `json.MarshalIndent`, as a black box: the encoding, or a failure. -/
def jsonMarshal : Value → Option String
  | Value.json s => some s
  | Value.unsupported => none

/-- `json.Unmarshal`, as a black box: accepts exactly an encoding followed
by the newline that `Write` appends; anything else is malformed. -/
def jsonUnmarshal (b : String) : Option Value :=
  match b.data.getLast? with
  | some c => if c = '\n' then some (Value.json (String.mk b.data.dropLast)) else none
  | none => none

/-- The store driver (`Driver` in main.go): root directory and the
per-collection lock registry.  A `sync.Mutex` instance is identified by the
`Nat` it was allocated with; `nextId` is the fresh-allocation counter
standing for pointer identity. -/
structure Driver where
  dir : String
  mutexes : List (String × Nat)
  nextId : Nat
deriving DecidableEq, Repr

/-- Injected environmental outcomes of the fallible OS calls: whether
directory creation, the temporary-file write, the rename, the existence
check or a removal fails, and the set of paths whose reads fail. -/
structure Env where
  mkdirFails : Bool
  tempWriteFails : Bool
  renameFails : Bool
  statFails : Bool
  readFailures : List String
  removeFails : Bool
deriving DecidableEq, Repr

/-- True when `p` is one of the paths whose reads the environment fails. -/
def readFailureAt (env : Env) (p : String) : Bool :=
  match env.readFailures with
  | l => listHasPath l p
where
  listHasPath : List String → String → Bool
    | [], _ => false
    | q :: rest, p => if q = p then true else listHasPath rest p

/-- The filesystem mutations `Write` attempts, in order; used to state the
no-I/O and rename-never-executed clauses. -/
inductive Op where
  | mkdirAll (path : String)
  | writeFile (path : String)
  | rename (oldPath newPath : String)
deriving DecidableEq, Repr

/-- Error kinds, tagged by the failing step.  Spec section 7 groups them as:
InvalidArgument = missingCollection, missingResource; NotFound = notFound;
IOError = mkdirError, ioWriteError, renameError, ioReadError, removeError;
SerializationError = serializationError, deserializationError. -/
inductive DBError where
  | missingCollection
  | missingResource
  | mkdirError
  | serializationError
  | ioWriteError
  | renameError
  | notFound
  | ioReadError
  | deserializationError
  | removeError
deriving DecidableEq, Repr

/-- The InvalidArgument error kind of spec section 7. -/
def DBError.isInvalidArgument : DBError → Bool
  | DBError.missingCollection => true
  | DBError.missingResource => true
  | _ => false

deriving instance DecidableEq for Except

/-- True when an operation outcome is an InvalidArgument failure. -/
def resultInvalidArgument : Except DBError Unit → Bool
  | Except.error e => e.isInvalidArgument
  | Except.ok _ => false

/-- `getOrCreateMutex` (main.go:165-175): look the collection up in the
registry under the registry lock, creating and registering a fresh lock on a
miss. -/
def getOrCreateMutex (d : Driver) (collection : String) : Nat × Driver :=
  match lookupKey d.mutexes collection with
  | some m => (m, d)
  | none =>
      (d.nextId,
       { d with
          mutexes := d.mutexes ++ [(collection, d.nextId)],
          nextId := d.nextId + 1 })

/-- `stat` (main.go:177-182): `os.Stat` on the path, falling back to the
path with `.json` appended when the first does not exist.  `Env.statFails`
injects an environmental stat failure; every caller branches the same way on
any stat error, so the model does not distinguish which call failed. -/
def stat (env : Env) (fs : FS) (p : String) : Option Entry :=
  if env.statFails then none
  else
    match lookupKey fs p with
    | some e => some e
    | none => lookupKey fs (p ++ ".json")

/-- Outcome of `Write`: the returned error value, the driver after the
registry update, the resulting filesystem, and the attempted mutations. -/
structure WriteResult where
  result : Except DBError Unit
  driver : Driver
  fs : FS
  trace : List Op
deriving DecidableEq, Repr

/-- `Write` (main.go:64-97): validate the identifiers, take the collection
lock (only its registry effect is modelled; the lock is released on every
exit path), ensure the collection directory, serialize, write the
temporary sibling `<resource>.json.tmp` and rename it over
`<resource>.json`.  The rename is modelled inline as erase-then-set of the
just-written temporary file. -/
def Write (d : Driver) (fs : FS) (env : Env) (collection resource : String)
    (v : Value) : WriteResult :=
  if collection = "" then
    ⟨Except.error DBError.missingCollection, d, fs, []⟩
  else if resource = "" then
    ⟨Except.error DBError.missingResource, d, fs, []⟩
  else
    let d1 := (getOrCreateMutex d collection).2
    let dir := filepathJoin [d.dir, collection]
    let fnlPath := filepathJoin [dir, resource ++ ".json"]
    let tempPath := fnlPath ++ ".tmp"
    match (if env.mkdirFails then none else mkdirAllFS fs dir) with
    | none => ⟨Except.error DBError.mkdirError, d1, fs, [Op.mkdirAll dir]⟩
    | some fs1 =>
      match jsonMarshal v with
      | none => ⟨Except.error DBError.serializationError, d1, fs1, [Op.mkdirAll dir]⟩
      | some s =>
        let b := s ++ "\n"
        if env.tempWriteFails then
          ⟨Except.error DBError.ioWriteError, d1, fs1,
           [Op.mkdirAll dir, Op.writeFile tempPath]⟩
        else
          let fs2 := setFS fs1 tempPath (Entry.file b)
          if env.renameFails then
            ⟨Except.error DBError.renameError, d1, fs2,
             [Op.mkdirAll dir, Op.writeFile tempPath, Op.rename tempPath fnlPath]⟩
          else
            ⟨Except.ok (), d1, setFS (eraseFS fs2 tempPath) fnlPath (Entry.file b),
             [Op.mkdirAll dir, Op.writeFile tempPath, Op.rename tempPath fnlPath]⟩

/-- `Read` (main.go:99-120): validate the identifiers, stat the record path
(with the `stat` fallback), then read and deserialize.  The final read
targets `record + ".json"`, appending the extension a second time — this is
preserved faithfully from the source. -/
def Read (d : Driver) (fs : FS) (env : Env) (collection resource : String) :
    Except DBError Value :=
  if collection = "" then Except.error DBError.missingCollection
  else if resource = "" then Except.error DBError.missingResource
  else
    let record := filepathJoin [d.dir, collection, resource ++ ".json"]
    match stat env fs record with
    | none => Except.error DBError.notFound
    | some _ =>
      match (if readFailureAt env (record ++ ".json") then none
             else lookupKey fs (record ++ ".json")) with
      | some (Entry.file b) =>
          match jsonUnmarshal b with
          | some v => Except.ok v
          | none => Except.error DBError.deserializationError
      | _ => Except.error DBError.ioReadError

/-- True when `p` is an immediate child path of directory `dir`. -/
def isDirectChild (dir p : String) : Bool :=
  if listIsPre (dir.data ++ ['/']) p.data then
    !((p.data.drop (dir.data.length + 1)).contains '/')
  else false

/-- The direct children of `dir`, in the enumeration order of the
filesystem listing (`ioutil.ReadDir` enumerates in name-sorted order; no
claim depends on which enumeration order is used, so the binding order of
the association list stands for it). -/
def childrenOf (fs : FS) (dir : String) : List String :=
  (fs.filter (fun pe => isDirectChild dir pe.1)).map (fun pe => pe.1)

/-- Content of the regular file at `p`, when there is one. -/
def fileContent (fs : FS) (p : String) : Option String :=
  match lookupKey fs p with
  | some (Entry.file b) => some b
  | _ => none

/-- The read loop of `ReadAll` (main.go:136-142): read each listed entry,
aborting with the first failure (an injected read failure, or the entry not
being a regular file). -/
def readRecords (env : Env) (fs : FS) : List String → Except DBError (List String)
  | [] => Except.ok []
  | p :: rest =>
    if readFailureAt env p then Except.error DBError.ioReadError
    else
      match fileContent fs p with
      | none => Except.error DBError.ioReadError
      | some b =>
        match readRecords env fs rest with
        | Except.error e => Except.error e
        | Except.ok bs => Except.ok (b :: bs)

/-- `ReadAll` (main.go:122-144): validate the collection, stat its directory
(with the `stat` fallback), enumerate and read every entry.  The source
discards the error of `ioutil.ReadDir`, so a stat hit that is not a
directory simply enumerates no children. -/
def ReadAll (d : Driver) (fs : FS) (env : Env) (collection : String) :
    Except DBError (List String) :=
  if collection = "" then Except.error DBError.missingCollection
  else
    let dir := filepathJoin [d.dir, collection]
    match stat env fs dir with
    | none => Except.error DBError.notFound
    | some _ => readRecords env fs (childrenOf fs dir)

/-- `Delete` (main.go:146-163): no identifier validation; take the
collection lock, stat `root/collection/resource` (with the `stat` fallback),
then remove recursively for a directory or remove the extension-qualified
file for a regular file.  `os.Remove` of a path that is not an existing
regular file is modelled as a failure (its success on an empty directory is
reachable only with a directory named `<resource>.json` next to a regular
file at the bare path, which nothing in this development visits). -/
def Delete (d : Driver) (fs : FS) (env : Env) (collection resource : String) :
    Except DBError Unit × Driver × FS :=
  let path := filepathJoin [collection, resource]
  let d1 := (getOrCreateMutex d collection).2
  let dir := filepathJoin [d1.dir, path]
  match stat env fs dir with
  | none => (Except.error DBError.notFound, d1, fs)
  | some Entry.directory =>
      if env.removeFails then (Except.error DBError.removeError, d1, fs)
      else (Except.ok (), d1, removeAllFS fs dir)
  | some (Entry.file _) =>
      if env.removeFails then (Except.error DBError.removeError, d1, fs)
      else
        match lookupKey fs (dir ++ ".json") with
        | some (Entry.file _) => (Except.ok (), d1, eraseFS fs (dir ++ ".json"))
        | _ => (Except.error DBError.removeError, d1, fs)

/-- The path `root/collection/resource` that `Delete` classifies. -/
def deleteTargetPath (d : Driver) (collection resource : String) : String :=
  filepathJoin [d.dir, filepathJoin [collection, resource]]

/-- A driver over root directory `db` with an empty lock registry. -/
def d0 : Driver := ⟨"db", [], 0⟩

/-- An environment in which no OS call fails. -/
def env0 : Env := ⟨false, false, false, false, [], false⟩

/-- A filesystem holding only the store root. -/
def fs0 : FS := [("db", Entry.directory)]

/-- An environment in which only the temporary-file write fails. -/
def envT : Env := ⟨false, true, false, false, [], false⟩

/-- A filesystem with a pre-existing record for collection `users`,
resource `john`. -/
def fsPre : FS :=
  [("db", Entry.directory), ("db/users", Entry.directory),
   ("db/users/john.json", Entry.file "old")]

/-- A filesystem where collection directory `db/c` is absent but a file
`db/c.json` exists at the fallback path of the existence check. -/
def fsFallback : FS := [("db/c.json", Entry.file "x")]

/-- A filesystem where the delete target `db/c/r` is a directory with
content. -/
def fsDirTarget : FS :=
  [("db/c/r", Entry.directory), ("db/c/r/x.json", Entry.file "1")]

/-- A filesystem where only the extension-qualified file `db/c/r.json`
exists. -/
def fsFileTarget : FS := [("db/c/r.json", Entry.file "1")]

/-- A collection directory `db/u` with two readable record files. -/
def fsOK : FS :=
  [("db/u", Entry.directory), ("db/u/a.json", Entry.file "A"),
   ("db/u/b.json", Entry.file "B")]

/-- A collection directory `db/u` with one child that is itself a
directory, so reading it fails. -/
def fsBAD : FS :=
  [("db/u", Entry.directory), ("db/u/a.json", Entry.file "A"),
   ("db/u/bad", Entry.directory)]

/-- A driver whose registry already holds a lock for collection `users`. -/
def d9 : Driver := ⟨"db", [("users", 0)], 1⟩

/-- A filesystem with collection `db/c` holding a record, next to an
unrelated collection `db/other`. -/
def fsColl : FS :=
  [("db/c", Entry.directory), ("db/c/a.json", Entry.file "A"),
   ("db/other", Entry.directory)]

/-- Lookup after `setFS`: the new binding at `p`, everything else as
before. -/
theorem lookupKey_setFS (fs : FS) (p q : String) (e : Entry) :
    lookupKey (setFS fs p e) q = if q = p then some e else lookupKey fs q := by
  induction fs with
  | nil =>
      simp only [setFS, lookupKey]
      by_cases h : p = q
      · rw [if_pos h, if_pos h.symm]
      · rw [if_neg h, if_neg (fun hh => h hh.symm)]
  | cons head rest ih =>
      obtain ⟨a, e0⟩ := head
      simp only [setFS]
      by_cases hap : a = p
      · subst hap
        rw [if_pos rfl]
        simp only [lookupKey]
        by_cases hq : a = q
        · rw [if_pos hq, if_pos hq.symm]
        · rw [if_neg hq, if_neg (fun hh => hq hh.symm), if_neg hq]
      · rw [if_neg hap]
        simp only [lookupKey, ih]
        by_cases hq : a = q
        · subst hq
          rw [if_pos rfl, if_neg hap, if_pos rfl]
        · rw [if_neg hq, if_neg hq]

/-- Lookup after `filterFS`: unchanged on kept paths, gone elsewhere. -/
theorem lookupKey_filterFS (fs : FS) (keep : String → Bool) (p : String) :
    lookupKey (filterFS fs keep) p =
      if keep p = true then lookupKey fs p else none := by
  induction fs with
  | nil => simp [filterFS, lookupKey]
  | cons head rest ih =>
      obtain ⟨a, e0⟩ := head
      simp only [filterFS, List.filter] at ih ⊢
      by_cases hk : keep a
      · rw [hk]
        simp only [lookupKey]
        by_cases hq : a = p
        · subst hq
          rw [if_pos rfl, if_pos hk, if_pos rfl]
        · rw [if_neg hq, ih]
          by_cases hp : keep p
          · rw [if_pos hp, if_pos hp, if_neg hq]
          · rw [if_neg hp, if_neg hp]
      · rw [Bool.not_eq_true] at hk
        rw [hk]
        simp only [lookupKey, ih]
        by_cases hp : keep p
        · rw [if_pos hp, if_pos hp]
          have hq : a ≠ p := by
            intro hh
            rw [hh, hp] at hk
            exact Bool.noConfusion hk
          rw [if_neg hq]
        · rw [if_neg hp, if_neg hp]

/-- A failed lookup means the key is absent from the key list. -/
theorem lookupKey_none_not_mem {α : Type} (l : List (String × α)) (k : String)
    (h : lookupKey l k = none) : k ∉ l.map Prod.fst := by
  induction l with
  | nil => simp
  | cons head rest ih =>
      obtain ⟨a, x⟩ := head
      simp only [lookupKey] at h
      by_cases ha : a = k
      · rw [if_pos ha] at h
        exact absurd h (by simp)
      · rw [if_neg ha] at h
        simp only [List.map_cons, List.mem_cons]
        rintro (rfl | hmem)
        · exact ha rfl
        · exact ih h hmem

/-- Lookup distributes over append when the key misses the front list. -/
theorem lookupKey_append_of_none {α : Type} (l1 l2 : List (String × α))
    (k : String) (h : lookupKey l1 k = none) :
    lookupKey (l1 ++ l2) k = lookupKey l2 k := by
  induction l1 with
  | nil => simp
  | cons head rest ih =>
      obtain ⟨a, x⟩ := head
      simp only [lookupKey, List.cons_append] at h ⊢
      by_cases ha : a = k
      · rw [if_pos ha] at h
        exact absurd h (by simp)
      · rw [if_neg ha] at h ⊢
        exact ih h

/-- Lookup ignores the back list when the key hits the front list. -/
theorem lookupKey_append_of_some {α : Type} (l1 l2 : List (String × α))
    (k : String) (v : α) (h : lookupKey l1 k = some v) :
    lookupKey (l1 ++ l2) k = some v := by
  induction l1 with
  | nil => simp [lookupKey] at h
  | cons head rest ih =>
      obtain ⟨a, x⟩ := head
      simp only [lookupKey, List.cons_append] at h ⊢
      by_cases ha : a = k
      · rwa [if_pos ha] at h ⊢
      · rw [if_neg ha] at h ⊢
        exact ih h

/-- Growth relation of `os.MkdirAll`: every path either keeps its binding or
gains a directory where there was nothing. -/
def dirGrowth (fs fs1 : FS) : Prop :=
  ∀ q, lookupKey fs1 q = lookupKey fs q ∨
    (lookupKey fs q = none ∧ lookupKey fs1 q = some Entry.directory)

theorem dirGrowth_refl (fs : FS) : dirGrowth fs fs := fun _ => Or.inl rfl

theorem dirGrowth_trans {fs fs1 fs2 : FS} (h1 : dirGrowth fs fs1)
    (h2 : dirGrowth fs1 fs2) : dirGrowth fs fs2 := by
  intro q
  rcases h2 q with h2q | ⟨h2n, h2d⟩
  · rcases h1 q with h1q | ⟨h1n, h1d⟩
    · exact Or.inl (h2q.trans h1q)
    · exact Or.inr ⟨h1n, h2q.trans h1d⟩
  · rcases h1 q with h1q | ⟨h1n, h1d⟩
    · exact Or.inr ⟨h1q ▸ h2n, h2d⟩
    · rw [h1d] at h2n
      exact absurd h2n (by simp)

/-- The directory-creation fold of `mkdirAllFS` only grows the filesystem
with directories. -/
theorem dirGrowth_mkdirFold (l : List String) (fs : FS) :
    dirGrowth fs (l.foldl
      (fun acc q =>
        if (lookupKey acc q).isSome then acc else setFS acc q Entry.directory)
      fs) := by
  induction l generalizing fs with
  | nil => exact dirGrowth_refl fs
  | cons x l ih =>
      simp only [List.foldl_cons]
      have hstep : dirGrowth fs
          (if (lookupKey fs x).isSome then fs else setFS fs x Entry.directory) := by
        by_cases hx : (lookupKey fs x).isSome
        · rw [if_pos hx]; exact dirGrowth_refl fs
        · rw [if_neg hx]
          intro q
          rw [lookupKey_setFS]
          by_cases hq : q = x
          · subst hq
            rw [if_pos rfl]
            exact Or.inr ⟨Option.not_isSome_iff_eq_none.mp hx, rfl⟩
          · rw [if_neg hq]
            exact Or.inl rfl
      exact dirGrowth_trans hstep (ih _)

/-- A successful `mkdirAllFS` only grows the filesystem with directories. -/
theorem mkdirAllFS_dirGrowth {fs fs1 : FS} {p : String}
    (h : mkdirAllFS fs p = some fs1) : dirGrowth fs fs1 := by
  unfold mkdirAllFS at h
  by_cases hg : (ancestorPaths p).any (fun q =>
      match lookupKey fs q with
      | some (Entry.file _) => true
      | _ => false)
  · rw [if_pos hg] at h
    exact absurd h (by simp)
  · rw [if_neg hg] at h
    have hh := Option.some.inj h
    rw [← hh]
    exact dirGrowth_mkdirFold _ fs

/-- The read loop succeeds and returns every listed file's content, in list
order, when no listed read fails. -/
theorem readRecords_ok (env : Env) (fs : FS) (l : List String)
    (h : ∀ p ∈ l, readFailureAt env p = false ∧ (fileContent fs p).isSome = true) :
    readRecords env fs l = Except.ok (l.filterMap (fun p => fileContent fs p)) := by
  induction l with
  | nil => simp [readRecords]
  | cons p rest ih =>
      obtain ⟨hf, hc⟩ := h p (List.mem_cons_self p rest)
      obtain ⟨b, hb⟩ := Option.isSome_iff_exists.mp hc
      have ihr := ih (fun q hq => h q (List.mem_cons_of_mem p hq))
      simp only [readRecords, hf, Bool.false_eq_true, if_false, hb, ihr,
        List.filterMap_cons]

/-- The read loop aborts with an I/O read error as soon as any listed read
fails, returning no partial sequence. -/
theorem readRecords_err (env : Env) (fs : FS) (l : List String)
    (h : ∃ p ∈ l, readFailureAt env p = true ∨ fileContent fs p = none) :
    readRecords env fs l = Except.error DBError.ioReadError := by
  induction l with
  | nil => simp at h
  | cons p rest ih =>
      obtain ⟨q, hq, hqprop⟩ := h
      simp only [readRecords]
      by_cases hf : readFailureAt env p = true
      · rw [if_pos hf]
      · rw [if_neg hf]
        rcases List.mem_cons.mp hq with rfl | hqrest
        · rcases hqprop with hq1 | hq2
          · exact absurd hq1 hf
          · rw [hq2]
        · cases hcp : fileContent fs p with
          | none => rfl
          | some b => rw [ih ⟨q, hqrest, hqprop⟩]

/-- `getOrCreateMutex` registers the lock it returns. -/
theorem getOrCreateMutex_lookup (d : Driver) (c : String) :
    lookupKey (getOrCreateMutex d c).2.mutexes c = some (getOrCreateMutex d c).1 := by
  cases hm : lookupKey d.mutexes c with
  | some m => simp [getOrCreateMutex, hm]
  | none =>
      simp only [getOrCreateMutex, hm]
      rw [lookupKey_append_of_none _ _ _ hm]
      simp [lookupKey]

/-- `getOrCreateMutex` never disturbs an existing binding. -/
theorem getOrCreateMutex_preserves (d : Driver) (c c' : String) (m' : Nat)
    (h : lookupKey d.mutexes c' = some m') :
    lookupKey (getOrCreateMutex d c).2.mutexes c' = some m' := by
  cases hm : lookupKey d.mutexes c with
  | some m => simpa [getOrCreateMutex, hm] using h
  | none =>
      simp only [getOrCreateMutex, hm]
      exact lookupKey_append_of_some _ _ _ _ h

/-- The registry after `getOrCreateMutex` is the old registry, possibly
extended at the end. -/
theorem getOrCreateMutex_append (d : Driver) (c : String) :
    ∃ rest, (getOrCreateMutex d c).2.mutexes = d.mutexes ++ rest := by
  cases hm : lookupKey d.mutexes c with
  | some m => exact ⟨[], by simp [getOrCreateMutex, hm]⟩
  | none => exact ⟨[(c, d.nextId)], by simp [getOrCreateMutex, hm]⟩

/-- `getOrCreateMutex` keeps the registry keys duplicate-free. -/
theorem getOrCreateMutex_nodup (d : Driver) (c : String)
    (h : List.Nodup (d.mutexes.map Prod.fst)) :
    List.Nodup ((getOrCreateMutex d c).2.mutexes.map Prod.fst) := by
  cases hm : lookupKey d.mutexes c with
  | some m => simpa [getOrCreateMutex, hm] using h
  | none =>
      simp only [getOrCreateMutex, hm, List.map_append, List.map_cons, List.map_nil]
      rw [List.nodup_append]
      refine ⟨h, List.nodup_singleton c, ?_⟩
      intro a ha hb
      simp only [List.mem_singleton] at hb
      subst hb
      exact lookupKey_none_not_mem d.mutexes a hm ha

/-- A second `getOrCreateMutex` on the same collection returns the same lock
and leaves the driver unchanged. -/
theorem getOrCreateMutex_stable (d : Driver) (c : String) :
    getOrCreateMutex (getOrCreateMutex d c).2 c =
      ((getOrCreateMutex d c).1, (getOrCreateMutex d c).2) := by
  have hl := getOrCreateMutex_lookup d c
  generalize hp : getOrCreateMutex d c = pr at hl ⊢
  unfold getOrCreateMutex
  rw [hl]

/-- The driver returned by `Write` is either the input driver (an identifier
was rejected) or the input driver after the registry update. -/
theorem Write_driver_cases (d : Driver) (fs : FS) (env : Env)
    (c r : String) (v : Value) :
    (Write d fs env c r v).driver = d ∨
      (Write d fs env c r v).driver = (getOrCreateMutex d c).2 := by
  by_cases hc : c = ""
  · simp [Write, hc]
  · by_cases hr : r = ""
    · simp [Write, hc, hr]
    · simp only [Write, if_neg hc, if_neg hr]
      cases hmk : (if env.mkdirFails then none else mkdirAllFS fs (filepathJoin [d.dir, c])) with
      | none => exact Or.inr rfl
      | some fs1 =>
          cases hv : jsonMarshal v with
          | none => exact Or.inr rfl
          | some s =>
              by_cases ht : env.tempWriteFails
              · simp [ht]
              · simp only [if_neg ht]
                by_cases hn : env.renameFails
                · simp [hn]
                · simp [hn]

/-- The driver returned by `Delete` is the input driver after the registry
update. -/
theorem Delete_driver (d : Driver) (fs : FS) (env : Env) (c r : String) :
    (Delete d fs env c r).2.1 = (getOrCreateMutex d c).2 := by
  simp only [Delete]
  cases hs : stat env fs (filepathJoin [(getOrCreateMutex d c).2.dir, filepathJoin [c, r]]) with
  | none => rfl
  | some e =>
      cases e with
      | directory => by_cases hrm : env.removeFails <;> simp [hrm]
      | file b =>
          by_cases hrm : env.removeFails
          · simp [hrm]
          · simp only [if_neg hrm]
            cases hl : lookupKey fs
                ((filepathJoin [(getOrCreateMutex d c).2.dir, filepathJoin [c, r]]) ++ ".json") with
            | none => rfl
            | some e2 => cases e2 <;> rfl

/-- `getOrCreateMutex` never changes the root directory. -/
theorem getOrCreateMutex_dir (d : Driver) (c : String) :
    (getOrCreateMutex d c).2.dir = d.dir := by
  cases hm : lookupKey d.mutexes c with
  | some m => simp [getOrCreateMutex, hm]
  | none => simp [getOrCreateMutex, hm]

/-- Claim C1 (settled as a code bug, evaluated at the failing input): after
a successful `Write("users","john",v)` the record is at
`db/users/john.json`, yet `Read("users","john")` fails with an I/O read
error instead of returning the value, because the source reads
`record + ".json"` — the resolved path with the extension appended a second
time. -/
theorem write_then_read_fails_on_double_extension :
    (Write d0 fs0 env0 "users" "john" (Value.json "rec")).result = Except.ok () ∧
    lookupKey (Write d0 fs0 env0 "users" "john" (Value.json "rec")).fs
        "db/users/john.json" = some (Entry.file "rec\n") ∧
    Read (Write d0 fs0 env0 "users" "john" (Value.json "rec")).driver
        (Write d0 fs0 env0 "users" "john" (Value.json "rec")).fs env0 "users" "john" =
      Except.error DBError.ioReadError := by decide

/-- Claim C2, counterexample: a `Write` whose serialization fails does
mutate the filesystem — the collection directory `db/users`, absent before
the call, exists afterwards, because `os.MkdirAll` runs before the encoder
is consulted. -/
theorem write_serialization_failure_creates_directory :
    (Write d0 fs0 env0 "users" "john" Value.unsupported).result =
      Except.error DBError.serializationError ∧
    lookupKey fs0 "db/users" = none ∧
    lookupKey (Write d0 fs0 env0 "users" "john" Value.unsupported).fs "db/users" =
      some Entry.directory := by decide

/-- Claim C2 as amended: when serialization fails, `Write` returns a
`SerializationError`, attempts no file write and no rename (its only
attempted mutation is the directory creation), and every pre-existing
binding — in particular any pre-existing resource file — is unchanged; the
only possible mutation is a directory appearing at a previously absent
path. -/
theorem write_serialization_failure_preserves_files
    (d : Driver) (fs : FS) (env : Env) (c r : String) (v : Value)
    (hc : c ≠ "") (hr : r ≠ "")
    (hm : env.mkdirFails = false)
    (hmk : (mkdirAllFS fs (filepathJoin [d.dir, c])).isSome = true)
    (hv : jsonMarshal v = none) :
    (Write d fs env c r v).result = Except.error DBError.serializationError ∧
    (Write d fs env c r v).trace = [Op.mkdirAll (filepathJoin [d.dir, c])] ∧
    ∀ p, lookupKey (Write d fs env c r v).fs p = lookupKey fs p ∨
      (lookupKey fs p = none ∧
        lookupKey (Write d fs env c r v).fs p = some Entry.directory) := by
  obtain ⟨fs1, hfs1⟩ := Option.isSome_iff_exists.mp hmk
  simp only [Write, if_neg hc, if_neg hr, hm, Bool.false_eq_true, if_false, hfs1, hv]
  exact ⟨trivial, trivial, mkdirAllFS_dirGrowth hfs1⟩

/-- Claim C2 witness: at a concrete store state with a pre-existing record,
a serialization-failing `Write` errors and leaves the record byte-for-byte
intact. -/
theorem write_serialization_failure_preserves_files_witness :
    (Write d0 fsPre env0 "users" "john" Value.unsupported).result =
      Except.error DBError.serializationError ∧
    lookupKey (Write d0 fsPre env0 "users" "john" Value.unsupported).fs
        "db/users/john.json" = some (Entry.file "old") := by
  have h := write_serialization_failure_preserves_files d0 fsPre env0 "users" "john"
    Value.unsupported (by decide) (by decide) (by decide) (by decide) (by decide)
  refine ⟨h.1, ?_⟩
  rcases h.2.2 "db/users/john.json" with h1 | ⟨h2, _⟩
  · rw [h1]; decide
  · exact absurd h2 (by decide)

/-- Claim C3: `Write` with an empty collection fails with the
missing-collection InvalidArgument, and `Write` with an empty resource
fails with an InvalidArgument; in both cases the filesystem and the driver
are untouched and no filesystem operation is attempted. -/
theorem write_empty_identifiers_no_io (d : Driver) (fs : FS) (env : Env)
    (c r : String) (v : Value) :
    ((Write d fs env "" r v).result = Except.error DBError.missingCollection ∧
      resultInvalidArgument (Write d fs env "" r v).result = true ∧
      (Write d fs env "" r v).fs = fs ∧
      (Write d fs env "" r v).driver = d ∧
      (Write d fs env "" r v).trace = []) ∧
    (resultInvalidArgument (Write d fs env c "" v).result = true ∧
      (Write d fs env c "" v).fs = fs ∧
      (Write d fs env c "" v).driver = d ∧
      (Write d fs env c "" v).trace = []) := by
  constructor
  · simp [Write, resultInvalidArgument, DBError.isInvalidArgument]
  · by_cases hc : c = "" <;>
      simp [Write, hc, resultInvalidArgument, DBError.isInvalidArgument]

/-- Claim C4: when the write of the temporary file `<r>.json.tmp` fails,
`Write` returns the I/O write error, never attempts the rename, and any
prior version of the resource file `<r>.json` is left untouched. -/
theorem write_temp_failure_preserves_resource (d : Driver) (fs : FS) (env : Env)
    (c r : String) (v : Value)
    (hc : c ≠ "") (hr : r ≠ "")
    (hm : env.mkdirFails = false)
    (hmk : (mkdirAllFS fs (filepathJoin [d.dir, c])).isSome = true)
    (hv : (jsonMarshal v).isSome = true)
    (ht : env.tempWriteFails = true) :
    (Write d fs env c r v).result = Except.error DBError.ioWriteError ∧
    (∀ o n, Op.rename o n ∉ (Write d fs env c r v).trace) ∧
    ∀ b, lookupKey fs (filepathJoin [filepathJoin [d.dir, c], r ++ ".json"]) =
        some (Entry.file b) →
      lookupKey (Write d fs env c r v).fs
          (filepathJoin [filepathJoin [d.dir, c], r ++ ".json"]) =
        some (Entry.file b) := by
  obtain ⟨fs1, hfs1⟩ := Option.isSome_iff_exists.mp hmk
  obtain ⟨s, hs⟩ := Option.isSome_iff_exists.mp hv
  simp only [Write, if_neg hc, if_neg hr, hm, Bool.false_eq_true, if_false,
    hfs1, hs, ht, if_true]
  refine ⟨trivial, ?_, ?_⟩
  · intro o n
    simp
  · intro b hb
    rcases mkdirAllFS_dirGrowth hfs1
        (filepathJoin [filepathJoin [d.dir, c], r ++ ".json"]) with h1 | ⟨h2, _⟩
    · rw [h1]; exact hb
    · rw [hb] at h2
      exact absurd h2 (by simp)

/-- Claim C4 witness: with only the temporary write failing, a concrete
`Write` over a pre-existing record errors with the I/O write error, leaves
the old record bytes in place, and its trace holds no rename. -/
theorem write_temp_failure_preserves_resource_witness :
    (Write d0 fsPre envT "users" "john" (Value.json "new")).result =
      Except.error DBError.ioWriteError ∧
    lookupKey (Write d0 fsPre envT "users" "john" (Value.json "new")).fs
        "db/users/john.json" = some (Entry.file "old") ∧
    Op.rename "db/users/john.json.tmp" "db/users/john.json" ∉
      (Write d0 fsPre envT "users" "john" (Value.json "new")).trace := by
  have h := write_temp_failure_preserves_resource d0 fsPre envT "users" "john"
    (Value.json "new") (by decide) (by decide) (by decide) (by decide)
    (by decide) (by decide)
  exact ⟨h.1, h.2.2 "old" (by decide),
    h.2.1 "db/users/john.json.tmp" "db/users/john.json"⟩

/-- Claim C5: `Delete` classifies `root/collection/resource` through the
existence check with its extension fallback — when neither form exists or
the check errors it fails with the not-found error and changes nothing;
when the target is a directory it recursively removes that directory and
everything below it; when the target resolves to a regular file it removes
exactly the extension-qualified file `root/collection/resource.json`. -/
theorem delete_classifies_target (d : Driver) (fs : FS) (env : Env) (c r : String) :
    ((env.statFails = true ∨
        (lookupKey fs (deleteTargetPath d c r) = none ∧
         lookupKey fs (deleteTargetPath d c r ++ ".json") = none)) →
      (Delete d fs env c r).1 = Except.error DBError.notFound ∧
      (Delete d fs env c r).2.2 = fs) ∧
    (stat env fs (deleteTargetPath d c r) = some Entry.directory →
      env.removeFails = false →
      (Delete d fs env c r).1 = Except.ok () ∧
      ∀ p, lookupKey (Delete d fs env c r).2.2 p =
        if underDir (deleteTargetPath d c r) p = true then none
        else lookupKey fs p) ∧
    (∀ b b', stat env fs (deleteTargetPath d c r) = some (Entry.file b) →
      lookupKey fs (deleteTargetPath d c r ++ ".json") = some (Entry.file b') →
      env.removeFails = false →
      (Delete d fs env c r).1 = Except.ok () ∧
      ∀ p, lookupKey (Delete d fs env c r).2.2 p =
        if p = deleteTargetPath d c r ++ ".json" then none
        else lookupKey fs p) := by
  have hdt : filepathJoin [(getOrCreateMutex d c).2.dir, filepathJoin [c, r]] =
      deleteTargetPath d c r := by
    rw [getOrCreateMutex_dir]; rfl
  refine ⟨?_, ?_, ?_⟩
  · intro h
    have hstat : stat env fs (deleteTargetPath d c r) = none := by
      unfold stat
      rcases h with h1 | ⟨h2, h3⟩
      · rw [if_pos h1]
      · by_cases hsf : env.statFails
        · rw [if_pos hsf]
        · rw [if_neg hsf]
          simp only [h2, h3]
    simp only [Delete, hdt, hstat]
    exact ⟨by trivial, by trivial⟩
  · intro hstat hrm
    simp only [Delete, hdt, hstat, hrm, Bool.false_eq_true, if_false]
    refine ⟨by trivial, ?_⟩
    intro p
    rw [removeAllFS, lookupKey_filterFS]
    by_cases hu : underDir (deleteTargetPath d c r) p = true <;> simp [hu]
  · intro b b' hstat hext hrm
    simp only [Delete, hdt, hstat, hrm, Bool.false_eq_true, if_false, hext]
    refine ⟨by trivial, ?_⟩
    intro p
    rw [eraseFS, lookupKey_filterFS]
    by_cases hp : p = deleteTargetPath d c r ++ ".json" <;> simp [hp]

/-- Claim C5 witness: the three classifications at concrete states — an
absent target yields the not-found error; a directory target is removed
together with its contents; a file target resolved through the extension
fallback has its extension-qualified file removed. -/
theorem delete_classifies_target_witness :
    (Delete d0 fs0 env0 "c" "r").1 = Except.error DBError.notFound ∧
    (Delete d0 fsDirTarget env0 "c" "r").1 = Except.ok () ∧
    lookupKey (Delete d0 fsDirTarget env0 "c" "r").2.2 "db/c/r/x.json" = none ∧
    (Delete d0 fsFileTarget env0 "c" "r").1 = Except.ok () ∧
    lookupKey (Delete d0 fsFileTarget env0 "c" "r").2.2 "db/c/r.json" = none := by
  have h1 := (delete_classifies_target d0 fs0 env0 "c" "r").1
    (Or.inr ⟨by decide, by decide⟩)
  have h2 := (delete_classifies_target d0 fsDirTarget env0 "c" "r").2.1
    (by decide) (by decide)
  have h3 := (delete_classifies_target d0 fsFileTarget env0 "c" "r").2.2 "1" "1"
    (by decide) (by decide) (by decide)
  refine ⟨h1.1, h2.1, ?_, h3.1, ?_⟩
  · rw [h2.2 "db/c/r/x.json"]; decide
  · rw [h3.2 "db/c/r.json"]; decide

/-- Claim C6: once `ReadAll` reaches the read loop over the enumerated
collection directory, a failure reading any single entry aborts the whole
call with the I/O read error and no result sequence is produced; with no
failure it returns every file's raw content, in enumeration order. -/
theorem readAll_all_or_nothing (d : Driver) (fs : FS) (env : Env) (c : String)
    (hc : c ≠ "")
    (hs : (stat env fs (filepathJoin [d.dir, c])).isSome = true) :
    ((∃ p ∈ childrenOf fs (filepathJoin [d.dir, c]),
        readFailureAt env p = true ∨ fileContent fs p = none) →
      ReadAll d fs env c = Except.error DBError.ioReadError) ∧
    ((∀ p ∈ childrenOf fs (filepathJoin [d.dir, c]),
        readFailureAt env p = false ∧ (fileContent fs p).isSome = true) →
      ReadAll d fs env c =
        Except.ok ((childrenOf fs (filepathJoin [d.dir, c])).filterMap
          (fun p => fileContent fs p))) := by
  obtain ⟨e, he⟩ := Option.isSome_iff_exists.mp hs
  constructor
  · intro hex
    simp only [ReadAll, if_neg hc, he]
    exact readRecords_err env fs _ hex
  · intro hall
    simp only [ReadAll, if_neg hc, he]
    exact readRecords_ok env fs _ hall

/-- Claim C6 witness: a concrete collection with two readable files returns
both contents in order, and a concrete collection with an unreadable child
aborts with the I/O read error. -/
theorem readAll_all_or_nothing_witness :
    ReadAll d0 fsOK env0 "u" = Except.ok ["A", "B"] ∧
    ReadAll d0 fsBAD env0 "u" = Except.error DBError.ioReadError := by
  have hok := (readAll_all_or_nothing d0 fsOK env0 "u" (by decide) (by decide)).2
    (by decide)
  have hbad := (readAll_all_or_nothing d0 fsBAD env0 "u" (by decide) (by decide)).1
    (by decide)
  exact ⟨hok.trans (by decide), hbad⟩

/-- Claim C7, counterexample: with the collection directory `db/c` absent
but a file `db/c.json` present, `ReadAll("c")` does not fail with the
not-found error — the existence check falls back to the extension-qualified
path, the discarded directory-enumeration error yields no children, and the
call succeeds with an empty sequence. -/
theorem readAll_missing_directory_fallback_succeeds :
    lookupKey fsFallback "db/c" = none ∧
    ReadAll d0 fsFallback env0 "c" = Except.ok [] := by decide

/-- Claim C7 as amended: `ReadAll(c)` fails with the not-found error when
neither the collection directory `root/c` nor the fallback path
`root/c.json` exists (the existence check tries both forms). -/
theorem readAll_neither_path_exists_not_found (d : Driver) (fs : FS) (env : Env)
    (c : String) (hc : c ≠ "")
    (h1 : lookupKey fs (filepathJoin [d.dir, c]) = none)
    (h2 : lookupKey fs (filepathJoin [d.dir, c] ++ ".json") = none) :
    ReadAll d fs env c = Except.error DBError.notFound := by
  have hstat : stat env fs (filepathJoin [d.dir, c]) = none := by
    unfold stat
    by_cases hsf : env.statFails
    · rw [if_pos hsf]
    · rw [if_neg hsf]
      simp only [h1, h2]
  simp only [ReadAll, if_neg hc, hstat]

/-- Claim C7 witness: over a store holding only its root, `ReadAll` of a
never-created collection fails with the not-found error. -/
theorem readAll_neither_path_exists_not_found_witness :
    ReadAll d0 fs0 env0 "missing" = Except.error DBError.notFound :=
  readAll_neither_path_exists_not_found d0 fs0 env0 "missing"
    (by decide) (by decide) (by decide)

/-- Claim C8: `Read` of a resource that was never written — neither
`root/c/r.json` nor that path with the extension appended again exists —
fails with the not-found error. -/
theorem read_never_written_not_found (d : Driver) (fs : FS) (env : Env)
    (c r : String) (hc : c ≠ "") (hr : r ≠ "")
    (h1 : lookupKey fs (filepathJoin [d.dir, c, r ++ ".json"]) = none)
    (h2 : lookupKey fs (filepathJoin [d.dir, c, r ++ ".json"] ++ ".json") = none) :
    Read d fs env c r = Except.error DBError.notFound := by
  have hstat : stat env fs (filepathJoin [d.dir, c, r ++ ".json"]) = none := by
    unfold stat
    by_cases hsf : env.statFails
    · rw [if_pos hsf]
    · rw [if_neg hsf]
      simp only [h1, h2]
  simp only [Read, if_neg hc, if_neg hr, hstat]

/-- Claim C8 witness: over a store holding only its root, `Read` of a
never-written resource fails with the not-found error. -/
theorem read_never_written_not_found_witness :
    Read d0 fs0 env0 "users" "john" = Except.error DBError.notFound :=
  read_never_written_not_found d0 fs0 env0 "users" "john"
    (by decide) (by decide) (by decide) (by decide)

/-- Claim C9: the lock registry holds at most one lock per collection name
and only grows — `getOrCreateMutex` registers the lock it returns, a repeat
call returns the same instance without changing the driver, existing
bindings are never replaced or removed, the registry extends only at the
end, duplicate-freedom of the keys is preserved, and the registry-touching
operations `Write` and `Delete` preserve all of this as well. -/
theorem lock_registry_at_most_one_per_collection (d : Driver) (c : String) :
    lookupKey (getOrCreateMutex d c).2.mutexes c = some (getOrCreateMutex d c).1 ∧
    getOrCreateMutex (getOrCreateMutex d c).2 c =
      ((getOrCreateMutex d c).1, (getOrCreateMutex d c).2) ∧
    (∀ c' m', lookupKey d.mutexes c' = some m' →
      lookupKey (getOrCreateMutex d c).2.mutexes c' = some m') ∧
    (∃ rest, (getOrCreateMutex d c).2.mutexes = d.mutexes ++ rest) ∧
    (List.Nodup (d.mutexes.map Prod.fst) →
      List.Nodup ((getOrCreateMutex d c).2.mutexes.map Prod.fst)) ∧
    (∀ fs env r v c' m', lookupKey d.mutexes c' = some m' →
      lookupKey (Write d fs env c r v).driver.mutexes c' = some m') ∧
    (∀ fs env r c' m', lookupKey d.mutexes c' = some m' →
      lookupKey (Delete d fs env c r).2.1.mutexes c' = some m') ∧
    (∀ fs env r v, List.Nodup (d.mutexes.map Prod.fst) →
      List.Nodup ((Write d fs env c r v).driver.mutexes.map Prod.fst)) ∧
    (∀ fs env r, List.Nodup (d.mutexes.map Prod.fst) →
      List.Nodup ((Delete d fs env c r).2.1.mutexes.map Prod.fst)) := by
  refine ⟨getOrCreateMutex_lookup d c, getOrCreateMutex_stable d c,
    fun c' m' h => getOrCreateMutex_preserves d c c' m' h,
    getOrCreateMutex_append d c,
    fun h => getOrCreateMutex_nodup d c h, ?_, ?_, ?_, ?_⟩
  · intro fs env r v c' m' h
    rcases Write_driver_cases d fs env c r v with hd | hd
    · rw [hd]; exact h
    · rw [hd]; exact getOrCreateMutex_preserves d c c' m' h
  · intro fs env r c' m' h
    rw [Delete_driver]
    exact getOrCreateMutex_preserves d c c' m' h
  · intro fs env r v h
    rcases Write_driver_cases d fs env c r v with hd | hd
    · rw [hd]; exact h
    · rw [hd]; exact getOrCreateMutex_nodup d c h
  · intro fs env r h
    rw [Delete_driver]
    exact getOrCreateMutex_nodup d c h

/-- Claim C9 witness: over a registry already holding the `users` lock,
creating the `posts` lock keeps the `users` binding and registers the
returned `posts` lock. -/
theorem lock_registry_at_most_one_per_collection_witness :
    lookupKey (getOrCreateMutex d9 "posts").2.mutexes "users" = some 0 ∧
    lookupKey (getOrCreateMutex d9 "posts").2.mutexes "posts" =
      some (getOrCreateMutex d9 "posts").1 := by
  have h := lock_registry_at_most_one_per_collection d9 "posts"
  exact ⟨h.2.2.1 "users" 0 (by decide), h.1⟩

/-- Claim C10: `Delete` validates nothing — with an empty resource the
joined path collapses to the collection itself, so when the collection
directory exists, `Delete(c, "")` succeeds (never an InvalidArgument) and
recursively removes the entire collection with all of its resource
files. -/
theorem delete_empty_resource_removes_collection (d : Driver) (fs : FS) (env : Env)
    (c : String) (hc : c ≠ "")
    (hsf : env.statFails = false)
    (hrm : env.removeFails = false)
    (hdir : lookupKey fs (filepathJoin [d.dir, c]) = some Entry.directory) :
    (Delete d fs env c "").1 = Except.ok () ∧
    ∀ p, lookupKey (Delete d fs env c "").2.2 p =
      if underDir (filepathJoin [d.dir, c]) p = true then none
      else lookupKey fs p := by
  have hjoin : filepathJoin [c, ""] = c := by
    simp [filepathJoin, joinSlash, hc]
  have hstat : stat env fs (filepathJoin [d.dir, c]) = some Entry.directory := by
    simp only [stat, hsf, Bool.false_eq_true, if_false, hdir]
  simp only [Delete, getOrCreateMutex_dir, hjoin, hstat, hrm,
    Bool.false_eq_true, if_false]
  refine ⟨by trivial, ?_⟩
  intro p
  rw [removeAllFS, lookupKey_filterFS]
  by_cases hu : underDir (filepathJoin [d.dir, c]) p = true <;> simp [hu]

/-- Claim C10 witness: deleting with an empty resource over a concrete
store succeeds and removes the collection's record while leaving a sibling
collection intact. -/
theorem delete_empty_resource_removes_collection_witness :
    (Delete d0 fsColl env0 "c" "").1 = Except.ok () ∧
    lookupKey (Delete d0 fsColl env0 "c" "").2.2 "db/c/a.json" = none ∧
    lookupKey (Delete d0 fsColl env0 "c" "").2.2 "db/other" = some Entry.directory := by
  have h := delete_empty_resource_removes_collection d0 fsColl env0 "c"
    (by decide) (by decide) (by decide) (by decide)
  refine ⟨h.1, ?_, ?_⟩
  · rw [h.2 "db/c/a.json"]; decide
  · rw [h.2 "db/other"]; decide

end GolangDatabase

